import Mathlib

/-!
Shallow embedding of the fusion-framework distributed graph engine
(`src/vertex.rs` and `src/udf.rs`) together with theorems settling the
specification claims about it.

Modelling conventions:
* Rust `u32`/`u128` identifiers (`VertexID`, `MachineID`, `Uuid`) are opaque
  tokens; they are modelled as `Nat` (no arithmetic is performed on them).
* `isize` payloads are modelled as `Int` with an explicit two's-complement
  wrap into the 64-bit range (`wrap64`) at every `+=` of the summing UDF —
  the release-profile overflow semantics of Rust; a debug build panics
  exactly where `wrap64` is not the identity, so results hypothesising that
  every partial sum stays in range hold under either profile.
* `HashSet<VertexID>` adjacency sets are modelled as `List VertexID` in the
  (unspecified but fixed) iteration order the Rust `HashSet` presents.
* A Rust `panic!`/`unwrap` failure is modelled by an explicit error value
  (`Option.none` for the vertex accessors, an `EvalErr` for the UDF
  interpreter): the `none`/`error` outcome stands for fatal process abort,
  not for a recoverable `Result`.
* `&mut self` methods are modelled as functions returning the new state
  alongside the Rust return value.
-/

namespace FusionFramework

/-- Type alias from vertex.rs:18 (`pub type VertexID = u32`). -/
abbrev VertexID := Nat

/-- Type alias from vertex.rs:19 (`pub type MachineID = u32`). -/
abbrev MachineID := Nat

/-- Request-correlation token: `uuid::Uuid` (128-bit), minted by
`Uuid::new_v4()` in `remote_execute` (vertex.rs:228). Opaque token. -/
abbrev RequestID := Nat

/-- Data wrapper, vertex.rs:26-27: `pub struct Data<T>(pub T)`. -/
structure Data (T : Type) where
  val : T
deriving DecidableEq, Repr

/-- LocalVertex, vertex.rs:125-133. Adjacency `HashSet`s are modelled as
lists in iteration order. -/
structure LocalVertex (T : Type) where
  incoming_edges : List VertexID
  outgoing_edges : List VertexID
  edges : List VertexID
  data : Option (Data T)
  borrowed_in : Bool
  leased_out : Bool
deriving DecidableEq, Repr

/-- RemoteVertex, vertex.rs:198-201: holds only the peer's machine id. -/
structure RemoteVertex where
  location : MachineID
deriving DecidableEq, Repr

/-- VertexType, vertex.rs:35-41: tagged union Local / Remote / Borrowed. -/
inductive VertexType (T : Type) where
  | Local (lv : LocalVertex T)
  | Remote (rv : RemoteVertex)
  | Borrowed (lv : LocalVertex T)
deriving DecidableEq, Repr

/-- Vertex, vertex.rs:46-50. -/
structure Vertex (T : Type) where
  id : VertexID
  v_type : VertexType T
deriving DecidableEq, Repr

/-- VertexKind, vertex.rs:280-284. -/
inductive VertexKind where
  | Local
  | Remote
  | Borrowed
deriving DecidableEq, Repr

/-- The kind tag of a vertex (which `VertexType` constructor it carries). -/
def Vertex.kind {T : Type} (v : Vertex T) : VertexKind :=
  match v.v_type with
  | .Local _ => .Local
  | .Remote _ => .Remote
  | .Borrowed _ => .Borrowed

/-- Modelled from the spec: `graph.rs` is not among the sources. Spec §3
gives `Graph` as a registry `map<VertexID, Vertex>` (its RPC stream and
pending-table state is modelled separately below); the call site
`graph.get(sub_graph_root_id)` in udf.rs:47 returns an optional vertex. -/
structure Graph (T : Type) where
  get : VertexID → Option (Vertex T)

/- ------------------- LocalVertex getters and setters (vertex.rs:170-192) -/

/-- vertex.rs:171-173: `children` returns the outgoing-edge set. -/
def LocalVertex.children {T : Type} (lv : LocalVertex T) : List VertexID :=
  lv.outgoing_edges

/-- vertex.rs:174-176: `parents` returns the incoming-edge set. -/
def LocalVertex.parents {T : Type} (lv : LocalVertex T) : List VertexID :=
  lv.incoming_edges

/-- vertex.rs:177-179: `edges` returns the undirected edge set. -/
def LocalVertex.get_edges {T : Type} (lv : LocalVertex T) : List VertexID :=
  lv.edges

/-- vertex.rs:180-182: `get_data` returns the optional payload. -/
def LocalVertex.get_data {T : Type} (lv : LocalVertex T) : Option (Data T) :=
  lv.data

/-- vertex.rs:186-192: `set_data`. If `leased_out` the write is discarded and
`None` is returned; otherwise `self.data.replace(data)` stores the new value
and returns the previous one. The mutated receiver is returned as the second
component. -/
def LocalVertex.set_data {T : Type} (lv : LocalVertex T) (d : Data T) :
    Option (Data T) × LocalVertex T :=
  if lv.leased_out then
    (none, lv)
  else
    (lv.data, { lv with data := some d })

/- ------------------- Vertex interfaces (vertex.rs:84-119) -/

/-- vertex.rs:84-92: `children()`. On Local/Borrowed it forwards to the
inner `LocalVertex`; on Remote the code executes
`panic!("Remote Node should not invoke children() function")`, modelled as
`none` (fatal abort, not a recoverable value). -/
def Vertex.children {T : Type} (v : Vertex T) : Option (List VertexID) :=
  match v.v_type with
  | .Local local_v | .Borrowed local_v => some local_v.children
  | .Remote _ => none

/-- vertex.rs:93-101: `parents()`; Remote panics, modelled as `none`. -/
def Vertex.parents {T : Type} (v : Vertex T) : Option (List VertexID) :=
  match v.v_type with
  | .Local local_v | .Borrowed local_v => some local_v.parents
  | .Remote _ => none

/-- vertex.rs:102-110: `edges()`; Remote panics, modelled as `none`. -/
def Vertex.edges {T : Type} (v : Vertex T) : Option (List VertexID) :=
  match v.v_type with
  | .Local local_v | .Borrowed local_v => some local_v.get_edges
  | .Remote _ => none

/-- vertex.rs:111-119: `get_val()`; Remote panics, modelled as `none`. -/
def Vertex.get_val {T : Type} (v : Vertex T) : Option (Option (Data T)) :=
  match v.v_type with
  | .Local local_v | .Borrowed local_v => some local_v.get_data
  | .Remote _ => none

/-- vertex.rs:58-78: `apply_function`, the UDF dispatcher. It is generic in
the user-defined function, so the UDF's `execute` and the remote RPC path are
parameters: Local/Borrowed invokes `udf.execute(&self, graph, aux)`, Remote
invokes `remote_vertex.remote_execute(self.id, graph, aux)`. `R` stands for
the (monadic) result of the asynchronous call. -/
def Vertex.apply_function {T U R : Type} (v : Vertex T)
    (udfExecute : Vertex T → Graph T → U → R)
    (remoteExecute : RemoteVertex → VertexID → Graph T → U → R)
    (graph : Graph T) (auxiliary_information : U) : R :=
  match v.v_type with
  | .Local _ | .Borrowed _ => udfExecute v graph auxiliary_information
  | .Remote remote_vertex =>
      remoteExecute remote_vertex v.id graph auxiliary_information

/- ------------------- RPC remote-execution protocol (vertex.rs:213-274) -/

/-- RPC command record. `rpc.rs` is not among the sources; the constructor is
fixed by its construction site `rpc::RPC::Execute(id, vertex_id, aux_info_len)`
(vertex.rs:253) and by spec §6, Extended form:
`Execute(RequestID, VertexID, aux_payload_length: uint)`. -/
inductive RPC where
  | Execute (id : RequestID) (vertex_id : VertexID) (aux_info_len : Nat)
deriving DecidableEq, Repr

/-- One observable effect of `remote_execute`, in program order:
registering the completion slot in `result_multiplexing_channels`
(vertex.rs:232-236), one contiguous `write_all` on the peer's sending stream
(vertex.rs:259-262), and suspending on `rx.recv()` (vertex.rs:271). -/
inductive RpcEvent where
  | register (id : RequestID)
  | write (loc : MachineID) (bytes : List Nat)
  | awaitResult (id : RequestID)
deriving DecidableEq, Repr

/-- The sequence of observable effects of one call to
`RemoteVertex::remote_execute` (vertex.rs:213-274), in the order the body
performs them. The fresh `Uuid::new_v4()` is the parameter `id`; the binary
codec (`bincode::serialize`) for the auxiliary information and for the
command record is abstracted into the parameters `serAux` and `serRPC`.
Step 3 registers the sending channel under `id`; Step 4 serializes
`aux_info` and the command `RPC::Execute(id, vertex_id, aux_info.len())`;
Step 5 performs `write_all(&[command, aux_info].concat())` — a single
contiguous write; Step 6 awaits the multiplexed result. -/
def RemoteVertex.remote_execute_trace {U : Type} (rv : RemoteVertex)
    (vertex_id : VertexID) (id : RequestID)
    (serAux : U → List Nat) (serRPC : RPC → List Nat)
    (auxiliary_information : U) : List RpcEvent :=
  let aux_info := serAux auxiliary_information
  let aux_info_len := aux_info.length
  let command := serRPC (RPC.Execute id vertex_id aux_info_len)
  [RpcEvent.register id,
   RpcEvent.write rv.location (command ++ aux_info),
   RpcEvent.awaitResult id]

/-- Projection of a trace onto its stream writes. -/
def RpcEvent.writeChunk : RpcEvent → Option (MachineID × List Nat)
  | .write loc bytes => some (loc, bytes)
  | _ => none

/-- Is the event a registration of the given request id? -/
def RpcEvent.isRegister (id : RequestID) : RpcEvent → Bool
  | .register id' => id' = id
  | _ => false

/-- The result-multiplexing (pending) table
`result_multiplexing_channels : HashMap<Uuid, Mutex<Sender<T>>>`, modelled as
the list of registered request ids (the stored value, a channel sender
handle, carries no data of its own: the value a sender transports is
accounted for by `inboundDeliver` below). -/
abbrev PendingTable := List RequestID

/-- HashMap insert: registers `id` (replacing any existing entry). -/
def tableInsert (tbl : PendingTable) (id : RequestID) : PendingTable :=
  id :: tbl.filter (fun e => e ≠ id)

/-- HashMap remove: drops the entry for `id`. -/
def tableRemove (tbl : PendingTable) (id : RequestID) : PendingTable :=
  tbl.filter (fun e => e ≠ id)

/-- Modelled from the spec: the companion inbound-response path is an
external collaborator not among the sources. Spec §4.2: "a receiver reads
responses off the peer's receive stream, extracts the RequestID, looks up
and removes the matching pending entry, and resolves its completion slot";
"A response whose RequestID has no registered entry … is silently dropped."
Returns the table after delivery and the value handed to the registered
waiter (if any). -/
def inboundDeliver {T : Type} (tbl : PendingTable) (id : RequestID)
    (value : T) : PendingTable × Option T :=
  if id ∈ tbl then
    (tableRemove tbl id, some value)
  else
    (tbl, none)

/-- Pending-table evolution of one completed `remote_execute` round trip:
Step 3 registers the fresh `id` (vertex.rs:232-236), the request is sent,
the peer's response for `id` carrying `respValue` is delivered by the
inbound path (spec-modelled `inboundDeliver`), and `rx.recv()` (vertex.rs:271)
returns the delivered value. Result: the table after the call and the value
`remote_execute` returns (`none` models a call that never completes). -/
def remoteExecutePendingRun {T : Type} (tbl : PendingTable) (id : RequestID)
    (respValue : T) : PendingTable × Option T :=
  let tbl1 := tableInsert tbl id
  inboundDeliver tbl1 id respValue

/- ------------------- GraphSum UDF (udf.rs:33-54) -/

/-- Smallest `isize` value (64-bit target). -/
def isizeMin : Int := -(2^63)

/-- Largest `isize` value (64-bit target). -/
def isizeMax : Int := 2^63 - 1

/-- An integer lies within the 64-bit `isize` range. -/
def inIsizeRange (x : Int) : Prop := isizeMin ≤ x ∧ x ≤ isizeMax

instance (x : Int) : Decidable (inIsizeRange x) :=
  inferInstanceAs (Decidable (isizeMin ≤ x ∧ x ≤ isizeMax))

/-- Two's-complement wrap into the 64-bit `isize` range: the result of an
overflowing Rust `isize` addition in a release build (overflow checks off).
A debug build panics exactly on the additions where `wrap64` is not the
identity. -/
def wrap64 (x : Int) : Int := (x + 2^63) % 2^64 - 2^63

/-- Abnormal outcomes of running the summing UDF, distinguishing each
`panic!`/`unwrap`/`expect` site of the sources from exhaustion of the
modelling fuel (possible divergence on cyclic graphs). -/
inductive EvalErr where
  /-- `panic!("Remote Node should not invoke …")` in the Vertex interface
  functions (vertex.rs:89,98,107,116). -/
  | remoteAccessPanic
  /-- `vertex.get_val().as_ref().unwrap()` on a `None` payload (udf.rs:43). -/
  | unwrapNonePanic
  /-- `graph.get(id).expect("node not found")` (udf.rs:48). -/
  | nodeNotFound
  /-- Modelling artifact: recursion-depth fuel exhausted. -/
  | outOfFuel
deriving DecidableEq, Repr

/-- Decidable equality of run outcomes, so concrete runs can be evaluated
inside proofs. -/
instance {ε α : Type} [DecidableEq ε] [DecidableEq α] :
    DecidableEq (Except ε α) := fun a b =>
  match a, b with
  | .error e, .error f =>
      if h : e = f then .isTrue (by rw [h])
      else .isFalse (fun hc => h (by injection hc))
  | .error _, .ok _ => .isFalse (fun hc => Except.noConfusion hc)
  | .ok _, .error _ => .isFalse (fun hc => Except.noConfusion hc)
  | .ok x, .ok y =>
      if h : x = y then .isTrue (by rw [h])
      else .isFalse (fun hc => h (by injection hc))

/-- `GraphSum::execute` (udf.rs:36-53), fuel-indexed. The body: start a
`Data(0)` accumulator, add the vertex's own payload
(`count += vertex.get_val().as_ref().unwrap().0`), then for each id in
`vertex.children()` look the child up in the graph
(`.expect("node not found")`) and add the result of dispatching
`apply_function(self, graph, aux_info)` on it. Each `+=` is the
`AddAssign<isize>` of udf.rs:26-30, an `isize` addition, so every
accumulation step wraps into the machine range (`wrap64`); the initial
`count += own payload` is `wrap64 (0 + d.val)`. The remote path of the
dispatcher is the oracle `remote` (its result may depend on the auxiliary
information, which is serialized into the request). `aux_info : Option u64`
is modelled as `Option Nat`. -/
def graphSumExecute (remote : VertexID → Option Nat → Except EvalErr Int) :
    Nat → Graph Int → Vertex Int → Option Nat → Except EvalErr Int
  | 0, _, _, _ => .error .outOfFuel
  | fuel+1, graph, vertex, aux_info =>
    match vertex.get_val with
    | none => .error .remoteAccessPanic
    | some none => .error .unwrapNonePanic
    | some (some d) =>
      match vertex.children with
      | none => .error .remoteAccessPanic
      | some cs =>
        cs.foldl (fun acc cid =>
          match acc with
          | .error e => .error e
          | .ok count =>
            match graph.get cid with
            | none => .error .nodeNotFound
            | some child =>
              match child.apply_function
                  (fun v g a => graphSumExecute remote fuel g v a)
                  (fun _ vid _ a => remote vid a) graph aux_info with
              | .error e => .error e
              | .ok r => .ok (wrap64 (count + r))) (.ok (wrap64 (0 + d.val)))

/-- The dispatcher instantiated with the summing UDF: `apply_function`
with `GraphSum::execute` on the Local/Borrowed branch and the remote oracle
on the Remote branch. -/
def applyFunctionSum (remote : VertexID → Option Nat → Except EvalErr Int)
    (fuel : Nat) (graph : Graph Int) (v : Vertex Int)
    (aux_info : Option Nat) : Except EvalErr Int :=
  v.apply_function (fun v g a => graphSumExecute remote fuel g v a)
    (fun _ vid _ a => remote vid a) graph aux_info

/-- Every vertex the fuel-bounded evaluation can visit from `v` carries a
`some` payload (children beyond the fuel horizon, missing graph entries and
remote vertices are not visited by the unwrap in udf.rs:43). -/
def noNonePayload : Nat → Graph Int → Vertex Int → Bool
  | 0, _, _ => true
  | fuel+1, graph, v =>
    match v.v_type with
    | .Remote _ => true
    | .Local lv | .Borrowed lv =>
      lv.data.isSome && lv.outgoing_edges.all (fun cid =>
        match graph.get cid with
        | none => true
        | some child => noNonePayload fuel graph child)

/-- Every vertex the fuel-bounded evaluation can visit from `v` is Local or
Borrowed (no Remote vertex is reachable within the fuel horizon). -/
def allLocalReachable : Nat → Graph Int → Vertex Int → Bool
  | 0, _, v =>
    (match v.v_type with
     | .Remote _ => false
     | _ => true)
  | fuel+1, graph, v =>
    match v.v_type with
    | .Remote _ => false
    | .Local lv | .Borrowed lv =>
      lv.outgoing_edges.all (fun cid =>
        match graph.get cid with
        | none => true
        | some child => allLocalReachable fuel graph child)

/- ------------------- Concrete chain graphs (spec §8, testable property) -/

/-- The i-th local vertex of an N-vertex chain, each holding payload `v`,
each having the next vertex as its single outgoing edge (the last has
none). -/
def chainLocalVertex (N : Nat) (v : Int) (i : Nat) : LocalVertex Int :=
  { incoming_edges := if i = 0 then [] else [i-1]
  , outgoing_edges := if i+1 < N then [i+1] else []
  , edges := (if i = 0 then [] else [i-1]) ++ (if i+1 < N then [i+1] else [])
  , data := some ⟨v⟩
  , borrowed_in := false
  , leased_out := false }

/-- The i-th vertex of the chain, wrapped as a Local vertex with id `i`. -/
def chainVertex (N : Nat) (v : Int) (i : Nat) : Vertex Int :=
  { id := i, v_type := .Local (chainLocalVertex N v i) }

/-- The chain graph: vertices `0 … N-1`. -/
def chainGraph (N : Nat) (v : Int) : Graph Int :=
  { get := fun i => if i < N then some (chainVertex N v i) else none }

/-- A two-vertex graph whose root (id 0, payload 5) has one child (id 1)
holding no payload: exercises the transitive unwrap panic of udf.rs:43. -/
def noneChildGraph : Graph Int :=
  { get := fun i =>
      if i = 0 then
        some ⟨0, .Local ⟨[], [1], [1], some ⟨5⟩, false, false⟩⟩
      else if i = 1 then
        some ⟨1, .Local ⟨[0], [], [0], none, false, false⟩⟩
      else none }

/- ===================================================================== -/
/- Theorems                                                              -/
/- ===================================================================== -/

/-- C1: `apply_function` dispatches solely on the vertex's kind: on Local or
Borrowed it returns exactly the result of `udf.execute(vertex, graph, aux)`,
and on Remote exactly the result of
`remote_vertex.remote_execute(vertex.id, graph, aux)`; no other behaviour
occurs. -/
theorem apply_function_dispatches_on_kind {T U R : Type} (v : Vertex T)
    (udfExecute : Vertex T → Graph T → U → R)
    (remoteExecute : RemoteVertex → VertexID → Graph T → U → R)
    (graph : Graph T) (aux : U) :
    ((v.kind = VertexKind.Local ∨ v.kind = VertexKind.Borrowed) →
      v.apply_function udfExecute remoteExecute graph aux =
        udfExecute v graph aux)
    ∧ (∀ rv : RemoteVertex, v.v_type = VertexType.Remote rv →
      v.apply_function udfExecute remoteExecute graph aux =
        remoteExecute rv v.id graph aux) := by
  obtain ⟨i, ty⟩ := v
  cases ty with
  | Local lv =>
      refine ⟨fun _ => rfl, fun rv h => ?_⟩
      simp [Vertex.v_type] at h
  | Borrowed lv =>
      refine ⟨fun _ => rfl, fun rv h => ?_⟩
      simp [Vertex.v_type] at h
  | Remote rv =>
      refine ⟨fun h => ?_, fun rv' h => ?_⟩
      · simp [Vertex.kind, Vertex.v_type] at h
      · simp only [Vertex.v_type] at h
        cases h
        rfl

/-- C1 witness: the dispatcher evaluated at a concrete Local vertex and a
concrete Remote vertex. -/
theorem apply_function_dispatches_on_kind_witness :
    (Vertex.apply_function (T := Int) (U := Option Nat) (R := Int)
        ⟨0, .Local (chainLocalVertex 1 3 0)⟩ (fun _ _ _ => 11)
        (fun _ _ _ _ => 22) (chainGraph 1 3) none = 11)
    ∧ (Vertex.apply_function (T := Int) (U := Option Nat) (R := Int)
        ⟨7, .Remote ⟨2⟩⟩ (fun _ _ _ => 11)
        (fun _ _ _ _ => 22) (chainGraph 1 3) none = 22) := by
  constructor
  · exact (apply_function_dispatches_on_kind _ _ _ _ _).1 (Or.inl rfl)
  · exact (apply_function_dispatches_on_kind _ _ _ _ _).2 ⟨2⟩ rfl

/-- C3: `set_data` — if `leased_out` is true the stored payload (indeed the
whole vertex) is unchanged and the no-previous-value sentinel `none` is
returned; if `leased_out` is false the payload is replaced by the new value
and the previous payload is returned. -/
theorem set_data_lease_semantics {T : Type} (lv : LocalVertex T)
    (d : Data T) :
    (lv.leased_out = true → lv.set_data d = (none, lv))
    ∧ (lv.leased_out = false →
        lv.set_data d = (lv.data, { lv with data := some d })) := by
  constructor
  · intro h
    simp [LocalVertex.set_data, h]
  · intro h
    simp [LocalVertex.set_data, h]

/-- C3 witness: `set_data` evaluated on a concrete leased-out vertex and a
concrete non-leased vertex. -/
theorem set_data_lease_semantics_witness :
    (LocalVertex.set_data (T := Int)
        ⟨[], [], [], some ⟨5⟩, false, true⟩ ⟨9⟩ =
      (none, ⟨[], [], [], some ⟨5⟩, false, true⟩))
    ∧ (LocalVertex.set_data (T := Int)
        ⟨[], [], [], some ⟨5⟩, false, false⟩ ⟨9⟩ =
      (some ⟨5⟩, ⟨[], [], [], some ⟨9⟩, false, false⟩)) := by
  constructor
  · exact (set_data_lease_semantics _ _).1 rfl
  · exact (set_data_lease_semantics _ _).2 rfl

/-- C6: on a Remote vertex every adjacency/payload accessor (`children`,
`parents`, `edges`, `get_val`) hits the fatal `panic!` (modelled `none`,
no recoverable value); on a Local or Borrowed vertex each returns the
underlying LocalVertex's corresponding set or payload (`some …`, never the
abort). -/
theorem accessors_abort_on_remote {T : Type} (v : Vertex T) :
    (∀ rv : RemoteVertex, v.v_type = VertexType.Remote rv →
      v.children = none ∧ v.parents = none ∧ v.edges = none
        ∧ v.get_val = none)
    ∧ (∀ lv : LocalVertex T,
        (v.v_type = VertexType.Local lv ∨ v.v_type = VertexType.Borrowed lv) →
      v.children = some lv.outgoing_edges
        ∧ v.parents = some lv.incoming_edges
        ∧ v.edges = some lv.edges
        ∧ v.get_val = some lv.data) := by
  obtain ⟨i, ty⟩ := v
  cases ty with
  | Local lv =>
      refine ⟨fun rv h => ?_, fun lv' h => ?_⟩
      · exact VertexType.noConfusion h
      · rcases h with h | h
        · cases h
          exact ⟨rfl, rfl, rfl, rfl⟩
        · exact VertexType.noConfusion h
  | Borrowed lv =>
      refine ⟨fun rv h => ?_, fun lv' h => ?_⟩
      · exact VertexType.noConfusion h
      · rcases h with h | h
        · exact VertexType.noConfusion h
        · cases h
          exact ⟨rfl, rfl, rfl, rfl⟩
  | Remote rv =>
      refine ⟨fun rv' h => ⟨rfl, rfl, rfl, rfl⟩, fun lv h => ?_⟩
      rcases h with h | h
      · exact VertexType.noConfusion h
      · exact VertexType.noConfusion h

/-- C6 witness: the accessors evaluated on a concrete Remote vertex and on a
concrete Borrowed vertex. -/
theorem accessors_abort_on_remote_witness :
    (Vertex.children (T := Int) ⟨3, .Remote ⟨1⟩⟩ = none
      ∧ Vertex.parents (T := Int) ⟨3, .Remote ⟨1⟩⟩ = none
      ∧ Vertex.edges (T := Int) ⟨3, .Remote ⟨1⟩⟩ = none
      ∧ Vertex.get_val (T := Int) ⟨3, .Remote ⟨1⟩⟩ = none)
    ∧ (Vertex.children (T := Int) ⟨4, .Borrowed ⟨[1], [2], [1, 2], some ⟨8⟩, true, false⟩⟩ = some [2]
      ∧ Vertex.parents (T := Int) ⟨4, .Borrowed ⟨[1], [2], [1, 2], some ⟨8⟩, true, false⟩⟩ = some [1]
      ∧ Vertex.edges (T := Int) ⟨4, .Borrowed ⟨[1], [2], [1, 2], some ⟨8⟩, true, false⟩⟩ = some [1, 2]
      ∧ Vertex.get_val (T := Int) ⟨4, .Borrowed ⟨[1], [2], [1, 2], some ⟨8⟩, true, false⟩⟩ = some (some ⟨8⟩)) := by
  constructor
  · exact (accessors_abort_on_remote (T := Int) ⟨3, .Remote ⟨1⟩⟩).1 ⟨1⟩ rfl
  · exact (accessors_abort_on_remote (T := Int)
      ⟨4, .Borrowed ⟨[1], [2], [1, 2], some ⟨8⟩, true, false⟩⟩).2
      ⟨[1], [2], [1, 2], some ⟨8⟩, true, false⟩ (Or.inr rfl)

/-- C10: frame property of `set_data` — in both branches the
`incoming_edges`, `outgoing_edges`, `edges`, `borrowed_in` and `leased_out`
fields are unchanged, and in the leased-out branch the `data` field is also
unchanged. -/
theorem set_data_frame {T : Type} (lv : LocalVertex T) (d : Data T) :
    ((lv.set_data d).2.incoming_edges = lv.incoming_edges
      ∧ (lv.set_data d).2.outgoing_edges = lv.outgoing_edges
      ∧ (lv.set_data d).2.edges = lv.edges
      ∧ (lv.set_data d).2.borrowed_in = lv.borrowed_in
      ∧ (lv.set_data d).2.leased_out = lv.leased_out)
    ∧ (lv.leased_out = true → (lv.set_data d).2.data = lv.data) := by
  by_cases h : lv.leased_out
  · simp [LocalVertex.set_data, h]
  · simp [LocalVertex.set_data, h]

/-- C10 witness: the frame property evaluated on a concrete leased-out
vertex. -/
theorem set_data_frame_witness :
    (LocalVertex.set_data (T := Int)
        ⟨[1], [2], [1, 2], some ⟨5⟩, true, true⟩ ⟨9⟩).2.data = some ⟨5⟩ := by
  exact (set_data_frame _ _).2 rfl

/-- Helper: filtering away an id that is not in the table leaves the table
unchanged. -/
theorem filter_ne_of_not_mem (tbl : PendingTable) (id : RequestID)
    (h : id ∉ tbl) : tbl.filter (fun e => e ≠ id) = tbl := by
  apply List.filter_eq_self.mpr
  intro a ha
  have : a ≠ id := fun he => h (he ▸ ha)
  simpa using this

/-- C2: for a completed `remote_execute` round trip with a fresh RequestID,
the delivered value is returned, the RequestID is registered exactly once
before the request is sent, and on delivery its entry is removed — after the
call no entry for that RequestID remains in the result-multiplexing table
(it is restored to exactly its prior contents). -/
theorem remote_execute_clears_pending {T : Type} (tbl : PendingTable)
    (id : RequestID) (respValue : T) (h : id ∉ tbl) :
    (remoteExecutePendingRun tbl id respValue).2 = some respValue
    ∧ (tableInsert tbl id).count id = 1
    ∧ id ∉ (remoteExecutePendingRun tbl id respValue).1
    ∧ (remoteExecutePendingRun tbl id respValue).1 = tbl := by
  have hfilter : tbl.filter (fun e => e ≠ id) = tbl :=
    filter_ne_of_not_mem tbl id h
  have hins : tableInsert tbl id = id :: tbl := by
    show id :: tbl.filter (fun e => e ≠ id) = id :: tbl
    rw [hfilter]
  have hmem : id ∈ tableInsert tbl id := by
    simp [hins]
  have hrem : tableRemove (tableInsert tbl id) id = tbl := by
    rw [hins]
    show (id :: tbl).filter (fun e => e ≠ id) = tbl
    rw [List.filter_cons]
    simp only [ne_eq, decide_not, decide_True, Bool.not_true,
      Bool.false_eq_true, if_false]
    simpa using hfilter
  have hrun : remoteExecutePendingRun tbl id respValue = (tbl, some respValue) := by
    simp [remoteExecutePendingRun, inboundDeliver, hmem, hrem]
  refine ⟨by simp [hrun], ?_, by simp [hrun, h], by simp [hrun]⟩
  simp [hins, List.count_cons]
  exact List.count_eq_zero.mpr h

/-- C2 witness: the round trip evaluated on the empty table with a concrete
id and response value. -/
theorem remote_execute_clears_pending_witness :
    (remoteExecutePendingRun ([] : PendingTable) 4 (10 : Int)).2 = some 10
    ∧ (tableInsert [] 4).count 4 = 1
    ∧ 4 ∉ (remoteExecutePendingRun ([] : PendingTable) 4 (10 : Int)).1
    ∧ (remoteExecutePendingRun ([] : PendingTable) 4 (10 : Int)).1 = [] := by
  exact remote_execute_clears_pending [] 4 (10 : Int) (by simp)

/-- C4: in every execution of `remote_execute`, the registration of the
completion slot under the fresh RequestID precedes every write of request
bytes to the peer's send stream: any write event in the trace is preceded by
a register event for that RequestID. -/
theorem remote_execute_registers_before_send {U : Type} (rv : RemoteVertex)
    (vertex_id : VertexID) (id : RequestID) (serAux : U → List Nat)
    (serRPC : RPC → List Nat) (aux : U) (i : Nat) (loc : MachineID)
    (bytes : List Nat)
    (h : (rv.remote_execute_trace vertex_id id serAux serRPC aux).get? i =
      some (RpcEvent.write loc bytes)) :
    ∃ j, j < i ∧
      (rv.remote_execute_trace vertex_id id serAux serRPC aux).get? j =
        some (RpcEvent.register id) := by
  match i with
  | 0 =>
      exact absurd h (by simp [RemoteVertex.remote_execute_trace])
  | 1 =>
      exact ⟨0, Nat.zero_lt_one, rfl⟩
  | 2 =>
      exact absurd h (by simp [RemoteVertex.remote_execute_trace])
  | n+3 =>
      exact absurd h (by simp [RemoteVertex.remote_execute_trace])

/-- C4 witness: in a concrete trace, the write at position 1 is preceded by
the registration at position 0. -/
theorem remote_execute_registers_before_send_witness :
    ∃ j, j < 1 ∧
      (RemoteVertex.remote_execute_trace (U := Nat) ⟨2⟩ 5 77
          (fun u => [u]) (fun _ => [0]) 9).get? j =
        some (RpcEvent.register 77) := by
  exact remote_execute_registers_before_send ⟨2⟩ 5 77 (fun u => [u])
    (fun _ => [0]) 9 1 2 ([0] ++ [9]) rfl

/-- C5: the bytes `remote_execute` writes to the peer's send stream are
exactly the serialization of `Execute(RequestID, VertexID, aux_payload_len)`
immediately followed by the serialized auxiliary information, issued as one
single contiguous write to the remote vertex's machine, where
`aux_payload_len` is the byte length of the serialized auxiliary
information. -/
theorem remote_execute_wire_format {U : Type} (rv : RemoteVertex)
    (vertex_id : VertexID) (id : RequestID) (serAux : U → List Nat)
    (serRPC : RPC → List Nat) (aux : U) :
    (rv.remote_execute_trace vertex_id id serAux serRPC aux).filterMap
        RpcEvent.writeChunk =
      [(rv.location,
        serRPC (RPC.Execute id vertex_id (serAux aux).length)
          ++ serAux aux)] := by
  rfl

/- ------------------- GraphSum helper lemmas -/

/-- Helper: distinct error payloads give distinct `Except.error` results. -/
theorem except_error_ne {e e' : EvalErr} (h : e ≠ e') :
    (Except.error e : Except EvalErr Int) ≠ Except.error e' := by
  intro hc
  injection hc with hc'
  exact h hc'

/-- Helper: the dispatcher instantiated with the summing UDF runs
`GraphSum::execute` on a Local vertex. -/
theorem applyFunctionSum_local (remote : VertexID → Option Nat → Except EvalErr Int)
    (fuel : Nat) (g : Graph Int) (aux : Option Nat) (i : VertexID)
    (lv : LocalVertex Int) :
    applyFunctionSum remote fuel g ⟨i, .Local lv⟩ aux =
      graphSumExecute remote fuel g ⟨i, .Local lv⟩ aux := rfl

/-- Helper: the dispatcher instantiated with the summing UDF runs
`GraphSum::execute` on a Borrowed vertex. -/
theorem applyFunctionSum_borrowed (remote : VertexID → Option Nat → Except EvalErr Int)
    (fuel : Nat) (g : Graph Int) (aux : Option Nat) (i : VertexID)
    (lv : LocalVertex Int) :
    applyFunctionSum remote fuel g ⟨i, .Borrowed lv⟩ aux =
      graphSumExecute remote fuel g ⟨i, .Borrowed lv⟩ aux := rfl

/-- Helper: the dispatcher instantiated with the summing UDF delegates a
Remote vertex to the remote oracle. -/
theorem applyFunctionSum_remote (remote : VertexID → Option Nat → Except EvalErr Int)
    (fuel : Nat) (g : Graph Int) (aux : Option Nat) (i : VertexID)
    (rv : RemoteVertex) :
    applyFunctionSum remote fuel g ⟨i, .Remote rv⟩ aux = remote i aux := rfl

/-- Helper: unfolding one step of the summing UDF on a vertex whose payload
and children are available. -/
theorem graphSumExecute_succ (remote : VertexID → Option Nat → Except EvalErr Int)
    (fuel : Nat) (g : Graph Int) (v : Vertex Int) (aux : Option Nat)
    (d : Data Int) (cs : List VertexID)
    (hd : v.get_val = some (some d)) (hcs : v.children = some cs) :
    graphSumExecute remote (fuel+1) g v aux =
      cs.foldl (fun acc cid =>
        match acc with
        | .error e => .error e
        | .ok count =>
          match g.get cid with
          | none => .error .nodeNotFound
          | some child =>
            match applyFunctionSum remote fuel g child aux with
            | .error e => .error e
            | .ok r => .ok (wrap64 (count + r))) (.ok (wrap64 (0 + d.val))) := by
  simp only [graphSumExecute, hd, hcs]
  rfl

/-- Helper: the summing UDF panics at the payload unwrap when the vertex it
runs on holds no payload. -/
theorem graphSumExecute_succ_none (remote : VertexID → Option Nat → Except EvalErr Int)
    (fuel : Nat) (g : Graph Int) (v : Vertex Int) (aux : Option Nat)
    (hd : v.get_val = some none) :
    graphSumExecute remote (fuel+1) g v aux = .error .unwrapNonePanic := by
  simp only [graphSumExecute, hd]

/-- Helper: a predicate preserved by every fold step holds of the fold. -/
theorem foldl_preserves {α β : Type} (P : β → Prop) (f : β → α → β) :
    ∀ (l : List α) (b : β), P b → (∀ b' a, a ∈ l → P b' → P (f b' a)) →
      P (l.foldl f b)
  | [], _, hb, _ => hb
  | x :: xs, b, hb, hf =>
      foldl_preserves P f xs (f b x) (hf b x (List.mem_cons_self x xs) hb)
        (fun b' a ha hb' => hf b' a (List.mem_cons_of_mem x ha) hb')

/-- Helper: folds of functions that agree on the list's elements agree. -/
theorem foldl_congr_mem {α β : Type} (f f' : β → α → β) :
    ∀ (l : List α) (b : β), (∀ b' a, a ∈ l → f b' a = f' b' a) →
      l.foldl f b = l.foldl f' b
  | [], _, _ => rfl
  | x :: xs, b, h => by
      rw [List.foldl_cons, List.foldl_cons, h b x (List.mem_cons_self x xs)]
      exact foldl_congr_mem f f' xs (f' b x)
        (fun b' a ha => h b' a (List.mem_cons_of_mem x ha))

/-- Helper: wrapping is the identity on values inside the `isize` range. -/
theorem wrap64_eq_self {x : Int} (h : inIsizeRange x) : wrap64 x = x := by
  obtain ⟨h1, h2⟩ := h
  unfold isizeMin at h1
  unfold isizeMax at h2
  unfold wrap64
  omega

/-- Helper: if `v` and `N·v` lie in the `isize` range, so does every
intermediate multiple `j·v` with `1 ≤ j ≤ N`. -/
theorem scaled_in_range (N j : Nat) (v : Int) (hj1 : 1 ≤ j) (hjN : j ≤ N)
    (hv : inIsizeRange v) (hNv : inIsizeRange ((N : Int) * v)) :
    inIsizeRange ((j : Int) * v) := by
  obtain ⟨hv1, hv2⟩ := hv
  obtain ⟨hN1, hN2⟩ := hNv
  have hj1' : (1 : Int) ≤ (j : Int) := by exact_mod_cast hj1
  have hjN' : (j : Int) ≤ (N : Int) := by exact_mod_cast hjN
  have hdiff : (0 : Int) ≤ (N : Int) - (j : Int) := by linarith
  have hexp : ((N : Int) - (j : Int)) * v = (N : Int) * v - (j : Int) * v := by
    ring
  rcases le_or_lt 0 v with hvpos | hvneg
  · have hlow : (0 : Int) ≤ (j : Int) * v := mul_nonneg (by linarith) hvpos
    have hmono : (0 : Int) ≤ ((N : Int) - (j : Int)) * v :=
      mul_nonneg hdiff hvpos
    rw [hexp] at hmono
    constructor
    · unfold isizeMin
      linarith
    · unfold isizeMax at hN2 ⊢
      linarith
  · have hup : (j : Int) * v ≤ 0 :=
      mul_nonpos_of_nonneg_of_nonpos (by linarith) (le_of_lt hvneg)
    have hmono : ((N : Int) - (j : Int)) * v ≤ 0 :=
      mul_nonpos_of_nonneg_of_nonpos hdiff (le_of_lt hvneg)
    rw [hexp] at hmono
    constructor
    · unfold isizeMin at hN1 ⊢
      linarith
    · unfold isizeMax
      linarith

/-- Helper: running the summing UDF on the suffix of an N-chain starting at
vertex `i` (with `i + k = N`, `k ≥ 1` vertices remaining) yields `k · v`,
given at least `k` fuel, provided every intermediate multiple of `v` stays
within the `isize` range (so no accumulation wraps). -/
theorem chain_sum_suffix (v : Int) (remote : VertexID → Option Nat → Except EvalErr Int)
    (aux : Option Nat) (N : Nat) :
    ∀ fuel k i, i + k = N → 1 ≤ k → k ≤ fuel →
      (∀ j : Nat, 1 ≤ j → j ≤ k → inIsizeRange ((j : Int) * v)) →
      applyFunctionSum remote fuel (chainGraph N v) (chainVertex N v i) aux =
        .ok ((k : Int) * v) := by
  intro fuel
  induction fuel with
  | zero =>
      intro k i _ h2 h3 _
      omega
  | succ fuel ih =>
      intro k i h1 h2 _ hrange
      have hvr : inIsizeRange v := by
        have := hrange 1 (le_refl 1) h2
        simpa using this
      have hv0 : wrap64 (0 + v) = v := by
        rw [zero_add]
        exact wrap64_eq_self hvr
      rw [show chainVertex N v i = ⟨i, .Local (chainLocalVertex N v i)⟩ from rfl]
      rw [applyFunctionSum_local]
      have hd : (Vertex.get_val ⟨i, .Local (chainLocalVertex N v i)⟩ :
          Option (Option (Data Int))) = some (some ⟨v⟩) := rfl
      by_cases hlast : i + 1 < N
      · -- interior vertex: single child i+1 remains
        have hcs : (Vertex.children (T := Int)
            ⟨i, .Local (chainLocalVertex N v i)⟩) = some [i+1] := by
          show some (chainLocalVertex N v i).outgoing_edges = some [i+1]
          simp [chainLocalVertex, hlast]
        rw [graphSumExecute_succ remote fuel _ _ aux ⟨v⟩ [i+1] hd hcs]
        have hk : 2 ≤ k := by omega
        have hget : (chainGraph N v).get (i+1) = some (chainVertex N v (i+1)) := by
          simp [chainGraph, hlast]
        have hih : applyFunctionSum remote fuel (chainGraph N v)
            (chainVertex N v (i+1)) aux = .ok (((k-1 : Nat) : Int) * v) :=
          ih (k-1) (i+1) (by omega) (by omega) (by omega)
            (fun j hj1 hj2 => hrange j hj1 (by omega))
        simp only [List.foldl_cons, List.foldl_nil, hget, hih, hv0]
        have hcast : (((k-1 : Nat)) : Int) = (k : Int) - 1 := by omega
        have hsum : v + ((k-1 : Nat) : Int) * v = (k : Int) * v := by
          rw [hcast]
          ring
        rw [hsum, wrap64_eq_self (hrange k h2 (le_refl k))]
      · -- last vertex of the chain: no children
        have hk : k = 1 := by omega
        have hcs : (Vertex.children (T := Int)
            ⟨i, .Local (chainLocalVertex N v i)⟩) = some [] := by
          show some (chainLocalVertex N v i).outgoing_edges = some []
          simp [chainLocalVertex, hlast]
        rw [graphSumExecute_succ remote fuel _ _ aux ⟨v⟩ [] hd hcs]
        simp only [List.foldl_nil]
        show Except.ok (wrap64 (0 + v)) = _
        rw [hv0, hk]
        norm_num

/-- C7 (amended): provided every partial sum stays within the `isize` range
(v and N·v in [isizeMin, isizeMax]), running the summing UDF through the
dispatcher on a chain of N ≥ 1 local vertices, each holding payload v and
each having the next vertex as its single outgoing edge (the last having
none), returns N·v; and on a leaf Local or Borrowed vertex with no children
holding a payload in the `isize` range it returns exactly that payload. -/
theorem graph_sum_chain_and_leaf :
    (∀ (N : Nat) (v : Int) (fuel : Nat)
        (remote : VertexID → Option Nat → Except EvalErr Int)
        (aux : Option Nat), 1 ≤ N → N ≤ fuel →
      inIsizeRange v → inIsizeRange ((N : Int) * v) →
      applyFunctionSum remote fuel (chainGraph N v) (chainVertex N v 0) aux =
        .ok ((N : Int) * v))
    ∧ (∀ (lv : LocalVertex Int) (i : VertexID) (g : Graph Int) (fuel : Nat)
        (remote : VertexID → Option Nat → Except EvalErr Int)
        (aux : Option Nat) (d : Int),
        lv.outgoing_edges = [] → lv.data = some ⟨d⟩ → inIsizeRange d →
      applyFunctionSum remote (fuel+1) g ⟨i, .Local lv⟩ aux = .ok d
        ∧ applyFunctionSum remote (fuel+1) g ⟨i, .Borrowed lv⟩ aux = .ok d) := by
  constructor
  · intro N v fuel remote aux hN hfuel hv hNv
    exact chain_sum_suffix v remote aux N fuel N 0 (by omega) hN hfuel
      (fun j hj1 hj2 => scaled_in_range N j v hj1 hj2 hv hNv)
  · intro lv i g fuel remote aux d hcs hd hdr
    have hd0 : wrap64 (0 + d) = d := by
      rw [zero_add]
      exact wrap64_eq_self hdr
    have hd1 : (Vertex.get_val (T := Int) ⟨i, .Local lv⟩) = some (some ⟨d⟩) := by
      show some lv.data = some (some ⟨d⟩)
      rw [hd]
    have hd2 : (Vertex.get_val (T := Int) ⟨i, .Borrowed lv⟩) = some (some ⟨d⟩) := by
      show some lv.data = some (some ⟨d⟩)
      rw [hd]
    have hc1 : (Vertex.children (T := Int) ⟨i, .Local lv⟩) = some [] := by
      show some lv.outgoing_edges = some []
      rw [hcs]
    have hc2 : (Vertex.children (T := Int) ⟨i, .Borrowed lv⟩) = some [] := by
      show some lv.outgoing_edges = some []
      rw [hcs]
    constructor
    · rw [applyFunctionSum_local,
        graphSumExecute_succ remote fuel g _ aux ⟨d⟩ [] hd1 hc1]
      simp only [List.foldl_nil]
      rw [hd0]
    · rw [applyFunctionSum_borrowed,
        graphSumExecute_succ remote fuel g _ aux ⟨d⟩ [] hd2 hc2]
      simp only [List.foldl_nil]
      rw [hd0]

/-- C7 witness: a one-vertex chain with payload 5, evaluated by the
theorem. -/
theorem graph_sum_chain_and_leaf_witness :
    applyFunctionSum (fun _ _ => .error .outOfFuel) 1 (chainGraph 1 5)
      (chainVertex 1 5 0) none = .ok (((1 : Nat) : Int) * 5) := by
  exact graph_sum_chain_and_leaf.1 1 5 1 (fun _ _ => .error .outOfFuel) none
    (le_refl 1) (le_refl 1) (by decide) (by decide)

/-- C7 counterexample: on a chain of 2 local vertices each holding
`isizeMax`, the `isize` accumulation of the summing UDF overflows and
returns -2, not 2·isizeMax as the unqualified claim states. -/
theorem graph_sum_chain_overflow_counterexample :
    applyFunctionSum (fun _ _ => .error .outOfFuel) 2 (chainGraph 2 isizeMax)
        (chainVertex 2 isizeMax 0) none = .ok (-2)
    ∧ applyFunctionSum (fun _ _ => .error .outOfFuel) 2 (chainGraph 2 isizeMax)
        (chainVertex 2 isizeMax 0) none ≠ .ok (((2 : Nat) : Int) * isizeMax) := by
  constructor
  · decide
  · decide

/-- Helper: if every vertex the fuel-bounded evaluation can visit holds a
`some` payload and the remote oracle never reports the unwrap panic, the
summing UDF never hits the payload-unwrap panic of udf.rs:43. -/
theorem graph_sum_no_unwrap_aux
    (remote : VertexID → Option Nat → Except EvalErr Int)
    (hrem : ∀ vid a, remote vid a ≠ Except.error EvalErr.unwrapNonePanic) :
    ∀ fuel (g : Graph Int) (v : Vertex Int) (aux : Option Nat),
      noNonePayload fuel g v = true →
      applyFunctionSum remote fuel g v aux ≠
        Except.error EvalErr.unwrapNonePanic := by
  intro fuel
  induction fuel with
  | zero =>
      intro g v aux _
      obtain ⟨i, ty⟩ := v
      cases ty with
      | Local lv =>
          rw [applyFunctionSum_local]
          exact except_error_ne (by intro h; exact EvalErr.noConfusion h)
      | Borrowed lv =>
          rw [applyFunctionSum_borrowed]
          exact except_error_ne (by intro h; exact EvalErr.noConfusion h)
      | Remote rv =>
          rw [applyFunctionSum_remote]
          exact hrem i aux
  | succ fuel ih =>
      intro g v aux hnp
      obtain ⟨i, ty⟩ := v
      cases ty with
      | Remote rv =>
          rw [applyFunctionSum_remote]
          exact hrem i aux
      | Local lv =>
          simp only [noNonePayload, Bool.and_eq_true, List.all_eq_true] at hnp
          obtain ⟨hsome, hall⟩ := hnp
          obtain ⟨d, hd⟩ := Option.isSome_iff_exists.mp hsome
          rw [applyFunctionSum_local,
            graphSumExecute_succ remote fuel g ⟨i, .Local lv⟩ aux d
              lv.outgoing_edges (by show some lv.data = _; rw [hd]) rfl]
          apply foldl_preserves
            (fun x => x ≠ Except.error EvalErr.unwrapNonePanic)
          · exact fun h => Except.noConfusion h
          · intro b a ha hb
            cases b with
            | error e => exact hb
            | ok count =>
              cases hg : g.get a with
              | none =>
                  exact except_error_ne (by intro h; exact EvalErr.noConfusion h)
              | some child =>
                  have hchild : noNonePayload fuel g child = true := by
                    have := hall a ha
                    rw [hg] at this
                    exact this
                  have hne := ih g child aux hchild
                  show (match applyFunctionSum remote fuel g child aux with
                    | Except.error e => Except.error e
                    | Except.ok r => Except.ok (wrap64 (count + r))) ≠
                    Except.error EvalErr.unwrapNonePanic
                  cases hres : applyFunctionSum remote fuel g child aux with
                  | error e =>
                      rw [hres] at hne
                      exact hne
                  | ok r => exact fun h => Except.noConfusion h
      | Borrowed lv =>
          simp only [noNonePayload, Bool.and_eq_true, List.all_eq_true] at hnp
          obtain ⟨hsome, hall⟩ := hnp
          obtain ⟨d, hd⟩ := Option.isSome_iff_exists.mp hsome
          rw [applyFunctionSum_borrowed,
            graphSumExecute_succ remote fuel g ⟨i, .Borrowed lv⟩ aux d
              lv.outgoing_edges (by show some lv.data = _; rw [hd]) rfl]
          apply foldl_preserves
            (fun x => x ≠ Except.error EvalErr.unwrapNonePanic)
          · exact fun h => Except.noConfusion h
          · intro b a ha hb
            cases b with
            | error e => exact hb
            | ok count =>
              cases hg : g.get a with
              | none =>
                  exact except_error_ne (by intro h; exact EvalErr.noConfusion h)
              | some child =>
                  have hchild : noNonePayload fuel g child = true := by
                    have := hall a ha
                    rw [hg] at this
                    exact this
                  have hne := ih g child aux hchild
                  show (match applyFunctionSum remote fuel g child aux with
                    | Except.error e => Except.error e
                    | Except.ok r => Except.ok (wrap64 (count + r))) ≠
                    Except.error EvalErr.unwrapNonePanic
                  cases hres : applyFunctionSum remote fuel g child aux with
                  | error e =>
                      rw [hres] at hne
                      exact hne
                  | ok r => exact fun h => Except.noConfusion h

/-- C8: the summing UDF requires every visited vertex to hold a payload. If
the vertex it runs on holds `none`, execution stops with the payload-unwrap
panic (udf.rs:43) — shown both directly and through a child vertex of a
concrete graph — and under the precondition that every vertex the evaluation
can visit holds a `some` payload (and the remote oracle never reports that
panic), the unwrap-panic outcome is unreachable. -/
theorem graph_sum_unwrap_panic :
    (∀ (fuel : Nat) (g : Graph Int) (v : Vertex Int) (aux : Option Nat)
        (remote : VertexID → Option Nat → Except EvalErr Int),
      (∀ vid a, remote vid a ≠ Except.error EvalErr.unwrapNonePanic) →
      noNonePayload fuel g v = true →
      applyFunctionSum remote fuel g v aux ≠
        Except.error EvalErr.unwrapNonePanic)
    ∧ (∀ (lv : LocalVertex Int) (i : VertexID) (g : Graph Int)
        (aux : Option Nat)
        (remote : VertexID → Option Nat → Except EvalErr Int) (fuel : Nat),
        lv.data = none →
      applyFunctionSum remote (fuel+1) g ⟨i, .Local lv⟩ aux =
          Except.error EvalErr.unwrapNonePanic
        ∧ applyFunctionSum remote (fuel+1) g ⟨i, .Borrowed lv⟩ aux =
          Except.error EvalErr.unwrapNonePanic)
    ∧ (∀ (remote : VertexID → Option Nat → Except EvalErr Int)
        (aux : Option Nat),
      applyFunctionSum remote 2 noneChildGraph
          ⟨0, .Local ⟨[], [1], [1], some ⟨5⟩, false, false⟩⟩ aux =
        Except.error EvalErr.unwrapNonePanic) := by
  refine ⟨fun fuel g v aux remote hrem hnp =>
    graph_sum_no_unwrap_aux remote hrem fuel g v aux hnp, ?_, ?_⟩
  · intro lv i g aux remote fuel hd
    constructor
    · rw [applyFunctionSum_local]
      exact graphSumExecute_succ_none remote fuel g _ aux
        (by show some lv.data = some none; rw [hd])
    · rw [applyFunctionSum_borrowed]
      exact graphSumExecute_succ_none remote fuel g _ aux
        (by show some lv.data = some none; rw [hd])
  · intro remote aux
    rfl

/-- C8 witness: the precondition and the panic conclusion evaluated on
concrete inputs (a payload-complete 2-chain, and a single payload-free
vertex). -/
theorem graph_sum_unwrap_panic_witness :
    (applyFunctionSum (fun _ _ => .error .outOfFuel) 2 (chainGraph 2 3)
        (chainVertex 2 3 0) none ≠ Except.error EvalErr.unwrapNonePanic)
    ∧ applyFunctionSum (fun _ _ => .error .outOfFuel) 1 (chainGraph 2 3)
        ⟨0, .Local ⟨[], [], [], none, false, false⟩⟩ none =
      Except.error EvalErr.unwrapNonePanic := by
  constructor
  · exact graph_sum_unwrap_panic.1 2 (chainGraph 2 3) (chainVertex 2 3 0)
      none (fun _ _ => .error .outOfFuel)
      (fun _ _ h => by injection h with h'; exact EvalErr.noConfusion h')
      (by decide)
  · exact (graph_sum_unwrap_panic.2.1 ⟨[], [], [], none, false, false⟩ 0
      (chainGraph 2 3) none (fun _ _ => .error .outOfFuel) 0 rfl).1

/-- C9: on a graph whose vertices visited by the (fuel-bounded) evaluation
are all Local or Borrowed, the result of the summing UDF is independent of
the auxiliary-information argument: runs with any two aux values return
identical results. -/
theorem graph_sum_aux_independent :
    ∀ (fuel : Nat) (g : Graph Int) (v : Vertex Int)
      (remote : VertexID → Option Nat → Except EvalErr Int)
      (aux₁ aux₂ : Option Nat),
      allLocalReachable fuel g v = true →
      applyFunctionSum remote fuel g v aux₁ =
        applyFunctionSum remote fuel g v aux₂ := by
  intro fuel
  induction fuel with
  | zero =>
      intro g v remote aux₁ aux₂ hlocal
      obtain ⟨i, ty⟩ := v
      cases ty with
      | Local lv => rfl
      | Borrowed lv => rfl
      | Remote rv => exact absurd hlocal (by simp [allLocalReachable])
  | succ fuel ih =>
      intro g v remote aux₁ aux₂ hlocal
      obtain ⟨i, ty⟩ := v
      cases ty with
      | Remote rv => exact absurd hlocal (by simp [allLocalReachable])
      | Local lv =>
          simp only [allLocalReachable, List.all_eq_true] at hlocal
          rw [applyFunctionSum_local, applyFunctionSum_local]
          cases hd : lv.data with
          | none =>
              rw [graphSumExecute_succ_none remote fuel g _ aux₁
                  (by show some lv.data = some none; rw [hd]),
                graphSumExecute_succ_none remote fuel g _ aux₂
                  (by show some lv.data = some none; rw [hd])]
          | some d =>
              rw [graphSumExecute_succ remote fuel g ⟨i, .Local lv⟩ aux₁ d
                  lv.outgoing_edges (by show some lv.data = _; rw [hd]) rfl,
                graphSumExecute_succ remote fuel g ⟨i, .Local lv⟩ aux₂ d
                  lv.outgoing_edges (by show some lv.data = _; rw [hd]) rfl]
              apply foldl_congr_mem
              intro b a ha
              cases b with
              | error e => rfl
              | ok count =>
                  cases hg : g.get a with
                  | none => rfl
                  | some child =>
                      have hchild : allLocalReachable fuel g child = true := by
                        have := hlocal a ha
                        rw [hg] at this
                        exact this
                      show (match applyFunctionSum remote fuel g child aux₁ with
                        | Except.error e => Except.error e
                        | Except.ok r => Except.ok (wrap64 (count + r))) =
                        (match applyFunctionSum remote fuel g child aux₂ with
                        | Except.error e => Except.error e
                        | Except.ok r => Except.ok (wrap64 (count + r)))
                      rw [ih g child remote aux₁ aux₂ hchild]
      | Borrowed lv =>
          simp only [allLocalReachable, List.all_eq_true] at hlocal
          rw [applyFunctionSum_borrowed, applyFunctionSum_borrowed]
          cases hd : lv.data with
          | none =>
              rw [graphSumExecute_succ_none remote fuel g _ aux₁
                  (by show some lv.data = some none; rw [hd]),
                graphSumExecute_succ_none remote fuel g _ aux₂
                  (by show some lv.data = some none; rw [hd])]
          | some d =>
              rw [graphSumExecute_succ remote fuel g ⟨i, .Borrowed lv⟩ aux₁ d
                  lv.outgoing_edges (by show some lv.data = _; rw [hd]) rfl,
                graphSumExecute_succ remote fuel g ⟨i, .Borrowed lv⟩ aux₂ d
                  lv.outgoing_edges (by show some lv.data = _; rw [hd]) rfl]
              apply foldl_congr_mem
              intro b a ha
              cases b with
              | error e => rfl
              | ok count =>
                  cases hg : g.get a with
                  | none => rfl
                  | some child =>
                      have hchild : allLocalReachable fuel g child = true := by
                        have := hlocal a ha
                        rw [hg] at this
                        exact this
                      show (match applyFunctionSum remote fuel g child aux₁ with
                        | Except.error e => Except.error e
                        | Except.ok r => Except.ok (wrap64 (count + r))) =
                        (match applyFunctionSum remote fuel g child aux₂ with
                        | Except.error e => Except.error e
                        | Except.ok r => Except.ok (wrap64 (count + r)))
                      rw [ih g child remote aux₁ aux₂ hchild]

/-- C9 witness: a concrete all-local 2-chain evaluated with `some 9` and
`none` auxiliary information through the theorem. -/
theorem graph_sum_aux_independent_witness :
    applyFunctionSum (fun vid a => .ok ((vid : Int) + (a.getD 0 : Nat))) 2
        (chainGraph 2 3) (chainVertex 2 3 0) (some 9) =
      applyFunctionSum (fun vid a => .ok ((vid : Int) + (a.getD 0 : Nat))) 2
        (chainGraph 2 3) (chainVertex 2 3 0) none := by
  exact graph_sum_aux_independent 2 (chainGraph 2 3) (chainVertex 2 3 0)
    (fun vid a => .ok ((vid : Int) + (a.getD 0 : Nat))) (some 9) none
    (by decide)

end FusionFramework
